import Mathlib

/-!
# Verification of the smart-patch-agent repository

A shallow embedding of the patch-refinement control loop and its
collaborators (router, validation node, validator interface, failure
analyzer, bug-type classifier, path cleaning, patch generation) together
with theorems settling the specification claims.

Python string operations are modelled over `List Char`; the top-level
functions keep the source's `str` signatures via `String` wrappers.
-/

set_option maxRecDepth 100000

namespace SmartPatch

/-! ## Python string primitives -/

/-- Characters treated as whitespace by Python's `str.strip` family
(ASCII fragment: space, tab, newline, carriage return, vertical tab,
form feed). -/
def isPyWs (c : Char) : Bool :=
  c = ' ' || c = '\t' || c = '\n' || c = '\r' || c = '\x0b' || c = '\x0c'

/-- Line-break characters recognised by Python's `str.splitlines`. -/
def isLineBreak (c : Char) : Bool :=
  c = '\n' || c = '\r' || c = '\x0b' || c = '\x0c' ||
  c = '\x1c' || c = '\x1d' || c = '\x1e' || c = '\x85' ||
  c = '\u2028' || c = '\u2029'

/-- Python `s.lstrip()` on char lists. -/
def lstripWs (l : List Char) : List Char := l.dropWhile isPyWs

/-- Python `s.rstrip()` on char lists. -/
def rstripWs (l : List Char) : List Char := (l.reverse.dropWhile isPyWs).reverse

/-- Python `s.strip()` on char lists. -/
def pyStrip (l : List Char) : List Char := rstripWs (lstripWs l)

/-- Python `s.strip()`. -/
def pyStripStr (s : String) : String := (pyStrip s.toList).asString

/-- `needle in haystack` for Python strings (substring test), char-list level. -/
def containsSub (needle hay : List Char) : Bool :=
  hay.tails.any (fun t => needle.isPrefixOf t)

/-- `needle in haystack` for Python strings (substring test). -/
def pyIn (needle hay : String) : Bool := containsSub needle.toList hay.toList

/-- Python `s.lower()` (ASCII case mapping). -/
def pyLower (s : String) : String := (s.toList.map Char.toLower).asString

/-- Python `s.upper()` (ASCII case mapping). -/
def pyUpper (s : String) : String := (s.toList.map Char.toUpper).asString

/-- Split a char list at every occurrence of `c` (Python `s.split(c)`;
always returns at least one piece). -/
def splitOnChar (c : Char) : List Char → List (List Char)
  | [] => [[]]
  | x :: xs =>
    if x = c then [] :: splitOnChar c xs
    else (splitOnChar c xs).modifyHead (fun h => x :: h)

/-- Python `sep.join(pieces)` with a one-character separator. -/
def joinChar (c : Char) : List (List Char) → List Char
  | [] => []
  | [p] => p
  | p :: rest => p ++ c :: joinChar c rest

/-- Python `str.splitlines` worker: `acc` is the reversed current line;
a `\r` immediately followed by `\n` counts as a single break. -/
def pySplitlinesAux : List Char → List Char → List (List Char)
  | [], acc => if acc.isEmpty then [] else [acc.reverse]
  | c :: rest, acc =>
    if c = '\r' then
      if rest.head? = some '\n' then acc.reverse :: pySplitlinesAux rest.tail []
      else acc.reverse :: pySplitlinesAux rest []
    else if isLineBreak c then acc.reverse :: pySplitlinesAux rest []
    else pySplitlinesAux rest (c :: acc)
termination_by l _ => l.length
decreasing_by all_goals (simp [List.length_tail]; try omega)

/-- Python `s.splitlines()` on char lists. -/
def pySplitlines (l : List Char) : List (List Char) := pySplitlinesAux l []

/-- Python `s.splitlines()`. -/
def pySplitlinesStr (s : String) : List (List Char) := pySplitlines s.toList

/-! ## `workflow/code_fetcher.py`: `clean_file_path` -/

/-- One step of the `..`-resolution loop inside `clean_file_path`:
`..` pops the previous component, empty and `.` components are dropped,
anything else is appended. -/
def resolveStep (acc : List (List Char)) (part : List Char) : List (List Char) :=
  if part = ['.', '.'] then acc.dropLast
  else if part ≠ [] ∧ part ≠ ['.'] then acc ++ [part]
  else acc

/-- The `clean_file_path` body on char lists: strip a leading `/src/`,
resolve `..`/`.`/empty segments, join with `/`, strip leading slashes. -/
def cleanFilePathChars (l : List Char) : List Char :=
  if l = [] then []
  else
    ((joinChar '/'
      (((splitOnChar '/'
        (if "/src/".toList.isPrefixOf l then l.drop 5 else l)).foldl resolveStep []))).dropWhile
          (fun c => c == '/'))

/-- `clean_file_path` from `workflow/code_fetcher.py`: cleans ASAN-reported
file paths (leading `/src/` prefix, `..` segments, leading slashes). -/
def clean_file_path (file_path : String) : String :=
  (cleanFilePathChars file_path.toList).asString

/-! ## `workflow/graph_builder.py` and `workflow/nodes.py`: the control loop

The workflow state's `validation_result` entry is a Python dict whose keys
may be absent (`state.get('validation_result', {})` and the `.get`
defaults); it is modelled as a record of `Option` fields, the missing-dict
case being the all-`none` record. -/

/-- The `validation_result` dict stored in `AgentState`. -/
structure ValidationResultDict where
  compiled : Option Bool
  poc_crash_detected : Option Bool
  functional_tests_passed : Option Bool
  logs : Option String

/-- `router_validate` from `workflow/graph_builder.py`: the conditional
edge evaluated after the `validate` node.  `poc_crash_detected` defaults
to `True` and `functional_tests_passed` to `False` when missing. -/
def router_validate (validation_result : ValidationResultDict)
    (retry_count max_retries : Int) : String :=
  let is_success := !(validation_result.poc_crash_detected.getD true) &&
    (validation_result.functional_tests_passed.getD false)
  if is_success then "success"
  else if retry_count > max_retries then "give_up"
  else "refine"

/-- The result dict returned by `run_validation` in
`validator/validator_interface.py` (all keys always present). -/
structure ValidatorResult where
  compiled : Bool
  poc_crash_detected : Bool
  functional_tests_passed : Bool
  poc_output : String
  compile_log : String

/-- Modelled from the spec, for comparison with the code: the §3 success
predicate `compiled == true AND pocCrashDetected == false AND
functionalTestsPassed == true`. -/
def success_predicate (r : ValidatorResult) : Bool :=
  r.compiled && !r.poc_crash_detected && r.functional_tests_passed

/-- The `is_successful` chain inside `validation_node`
(`workflow/nodes.py`): not compiled, or crash, or failed tests, means
failure. -/
def validation_node_success (result : ValidatorResult) : Bool :=
  if !result.compiled then false
  else if result.poc_crash_detected || !result.functional_tests_passed then false
  else true

/-- The `validation_result` dict that `validation_node` stores into the
state (`logs` is the validator's `poc_output`). -/
def validation_node_dict (result : ValidatorResult) : ValidationResultDict :=
  { compiled := some result.compiled,
    poc_crash_detected := some result.poc_crash_detected,
    functional_tests_passed := some result.functional_tests_passed,
    logs := some result.poc_output }

/-- `retry_count` after `validation_node`: incremented exactly when the
validation was not successful. -/
def validation_node_retry (result : ValidatorResult) (retry_count : Int) : Int :=
  if validation_node_success result then retry_count else retry_count + 1

/-- The refinement cycle `validate → router → analyze/gather/refine →
validate`, driven by the sequence of validator outcomes (one per
`validate` call); counts how many `validate` invocations run before the
router leaves the cycle. -/
def loop_validate_calls (max_retries : Int) :
    List ValidatorResult → Int → Nat
  | [], _ => 0
  | r :: rest, retry_count =>
    let rc := validation_node_retry r retry_count
    if router_validate (validation_node_dict r) rc max_retries = "refine" then
      1 + loop_validate_calls max_retries rest rc
    else 1

/-! ## Python `str.replace` -/

/-- Worker for `str.replace` with a nonempty pattern `p :: ps`:
non-overlapping leftmost replacement.  The `Nat` argument is fuel kept
equal to at least the list length so the recursion is structural; the
result never depends on it (the `0, l` fallback is unreachable from
`replaceChars`). -/
def replaceAux (p : Char) (ps rep : List Char) : Nat → List Char → List Char
  | _, [] => []
  | 0, l => l
  | fuel + 1, x :: xs =>
    if (p :: ps).isPrefixOf (x :: xs) then
      rep ++ replaceAux p ps rep fuel (xs.drop ps.length)
    else x :: replaceAux p ps rep fuel xs

/-- Python `s.replace(pat, rep)` on char lists (the source only ever calls
it with nonempty literal patterns). -/
def replaceChars (pat rep l : List Char) : List Char :=
  match pat with
  | [] => l
  | p :: ps => replaceAux p ps rep l.length l

/-- Python `s.replace(pat, rep)`. -/
def pyReplace (s pat rep : String) : String :=
  (replaceChars pat.toList rep.toList s.toList).asString

/-! ## `validator/validator_interface.py`: `run_validation`

The remote executor (`run_remote_command` in `validator/ssh_client.py`) is
modelled as an oracle mapping a command string to
`(exit code, stdout, stderr)`; `run_validation` is a pure function of that
oracle, and the trace of issued commands is returned alongside the result. -/

/-- The remote-command oracle: `command ↦ (exit code, stdout, stderr)`. -/
abbrev Exec := String → Int × String × String

/-- `VM_WORKSPACE` from `validator/ssh_client.py`. -/
def VM_WORKSPACE : String := "/home/sai/patch_agent_workspace"

/-- `critical_failure` from `validator/validator_interface.py`: setup
failures are reported as `compiled = false`, `poc_crash_detected = true`,
`functional_tests_passed = false` with the log in both log fields. -/
def critical_failure (_reason log : String) : ValidatorResult :=
  { compiled := false,
    poc_crash_detected := true,
    functional_tests_passed := false,
    poc_output := log,
    compile_log := log }

/-- The `setup_and_checkout_cmd` f-string (step 1). -/
def setup_and_checkout_cmd (workspace_path repo_path repo_addr buggy_commit : String) :
    String :=
  "\n    # Create and navigate to the project workspace\n    mkdir -p " ++
    workspace_path ++ " && cd " ++ workspace_path ++
    " && \n    \n    # Clean up old repo if it exists\n    rm -rf repo_dir && \n    \n    # Clone and Checkout Buggy Commit\n    git clone " ++
    repo_addr ++ " " ++ repo_path ++ " &&\n    cd " ++ repo_path ++
    " &&\n    git checkout " ++ buggy_commit ++ "\n    "

/-- The `apply_patch_cmd` f-string (step 2): a single invocation of
`patch -p1 --batch --forward`. -/
def apply_patch_cmd (repo_path escaped_patch_diff : String) : String :=
  "\n    cd " ++ repo_path ++ " &&\n    echo -e \"" ++ escaped_patch_diff ++
    "\" | patch -p1 --batch --forward\n    "

/-- The `full_docker_command` f-string (step 3). -/
def full_docker_command (workspace_path docker_cmd repo_path : String) : String :=
  "\n    cd " ++ workspace_path ++
    " && \n    # Adjust the Docker command to mount the patched repo\n    " ++
    docker_cmd ++ " --rm -v " ++ repo_path ++ ":/src \n    "

/-- `workspace_path = f"{VM_WORKSPACE}/{bug_id}"`. -/
def workspace_path_of (bug_id : String) : String := VM_WORKSPACE ++ "/" ++ bug_id

/-- `repo_path = f"{workspace_path}/repo_dir"`. -/
def repo_path_of (bug_id : String) : String := workspace_path_of bug_id ++ "/repo_dir"

/-- `patch_diff.replace('```diff', '').replace('```', '').strip()`. -/
def cleaned_patch_of (patch_diff : String) : String :=
  pyStripStr (pyReplace (pyReplace patch_diff "```diff" "") "```" "")

/-- `patch_diff_clean.replace('"', '\\"')`. -/
def escaped_patch_of (patch_diff : String) : String :=
  pyReplace (cleaned_patch_of patch_diff) "\"" "\\\""

/-- The setup command actually issued for a given bug. -/
def setup_cmd_of (bug_id repo_addr buggy_commit : String) : String :=
  setup_and_checkout_cmd (workspace_path_of bug_id) (repo_path_of bug_id)
    repo_addr buggy_commit

/-- The patch-application command actually issued for a given bug. -/
def apply_cmd_of (bug_id patch_diff : String) : String :=
  apply_patch_cmd (repo_path_of bug_id) (escaped_patch_of patch_diff)

/-- The reproducer command actually issued
(`reproducer_vul.replace("arvo:", "arvo-vul ")` mounted over the repo). -/
def docker_cmd_of (bug_id reproducer_vul : String) : String :=
  full_docker_command (workspace_path_of bug_id)
    (pyReplace reproducer_vul "arvo:" "arvo-vul ") (repo_path_of bug_id)

/-- Step 4's crash-marker scan:
`re.search(r'(AddressSanitizer|UndefinedBehaviorSanitizer|Segmentation fault|SIGSEGV|ERROR)', full_output, re.IGNORECASE)`. -/
def crash_signature_found (full_output : String) : Bool :=
  pyIn "addresssanitizer" (pyLower full_output) ||
  pyIn "undefinedbehaviorsanitizer" (pyLower full_output) ||
  pyIn "segmentation fault" (pyLower full_output) ||
  pyIn "sigsegv" (pyLower full_output) ||
  pyIn "error" (pyLower full_output)

/-- Step 4 (RESULT ANALYSIS) of `run_validation`: classify the reproducer
run from the container exit code and the combined output. -/
def classify_poc_result (docker_exit_code : Int) (docker_output docker_stderr : String) :
    ValidatorResult :=
  let full_output := docker_output ++ docker_stderr
  let poc_crash_detected := crash_signature_found full_output
  let compiled_successfully := (docker_exit_code == 0) || poc_crash_detected
  let functional_tests_passed := !poc_crash_detected
  { compiled := compiled_successfully,
    poc_crash_detected := poc_crash_detected,
    functional_tests_passed := functional_tests_passed,
    poc_output := full_output,
    compile_log := docker_stderr }

/-- `run_validation`, also returning the list of remote commands issued. -/
def run_validation_trace (exec : Exec)
    (bug_id repo_addr patch_diff buggy_commit reproducer_vul : String) :
    ValidatorResult × List String :=
  let s := exec (setup_cmd_of bug_id repo_addr buggy_commit)
  if s.1 ≠ 0 then
    (critical_failure "Git Checkout Failed"
       ("Git clone/checkout failed. Exit Code: " ++ toString s.1 ++ ". Stderr: " ++ s.2.2),
     [setup_cmd_of bug_id repo_addr buggy_commit])
  else
    let p := exec (apply_cmd_of bug_id patch_diff)
    if p.1 ≠ 0 ∧ pyIn "succeeded" p.2.1 = false then
      (critical_failure "Patch Apply Failed"
         ("Patch failed to apply cleanly. Stderr: " ++ p.2.2),
       [setup_cmd_of bug_id repo_addr buggy_commit, apply_cmd_of bug_id patch_diff])
    else
      let d := exec (docker_cmd_of bug_id reproducer_vul)
      (classify_poc_result d.1 d.2.1 d.2.2,
       [setup_cmd_of bug_id repo_addr buggy_commit, apply_cmd_of bug_id patch_diff,
        docker_cmd_of bug_id reproducer_vul])

/-- `run_validation` from `validator/validator_interface.py`. -/
def run_validation (exec : Exec)
    (bug_id repo_addr patch_diff buggy_commit reproducer_vul : String) :
    ValidatorResult :=
  (run_validation_trace exec bug_id repo_addr patch_diff buggy_commit reproducer_vul).1

/-! ## `workflow/nodes.py`: `failure_analyzer_node` -/

/-- The classification rule of `failure_analyzer_node`: crash markers in
the logs, else syntax error or not compiled, else logic error. -/
def failure_analyzer_reason (validation_log : String) (compiled : Bool) : String :=
  if pyIn "still crashing" (pyLower validation_log) ||
      pyIn "asan error" (pyLower validation_log) then "CRASH_PERSISTS"
  else if pyIn "syntax error" (pyLower validation_log) || !compiled then "COMPILE_ERROR"
  else "LOGIC_ERROR"

/-- `lsp_context_gatherer_node` from `workflow/nodes.py`: deterministic
context stub keyed on the failure reason. -/
def lsp_context_gatherer (failure_reason : String) : String :=
  if pyIn "CRASH_PERSISTS" failure_reason then
    "LSP_CONTEXT: Found bounds issue with array access."
  else "LSP_CONTEXT: Generic context gathered."

/-! ### C4: no `-p0` retry exists -/

/-- A remote executor on which the single `patch -p1` application fails
while any other command (in particular a `-p0` application) succeeds. -/
def exec_patch_p1_fails : Exec := fun cmd =>
  if pyIn "patch -p1" cmd then ((1 : Int), "", "") else ((0 : Int), "", "")

/-! ## `validator/arvo_data_loader.py`: bug-type classification

Only the `bug_category` chain of `extract_crash_context` is needed by the
claims; the file-path / line-number / function-name regex extraction of
that function is orthogonal and not modelled. -/

/-- The `bug_category` classification chain of `extract_crash_context`
(ordered case-insensitive keyword table over `crash_output`; `UNKNOWN`
when nothing matches or the output is empty). -/
def extract_crash_context_bug_category (crash_output : String) : String :=
  if crash_output = "" then "UNKNOWN"
  else
    let crash_lower := pyLower crash_output
    if pyIn "heap-buffer-overflow" crash_lower then "HEAP_BUFFER_OVERFLOW"
    else if pyIn "stack-buffer-overflow" crash_lower then "STACK_BUFFER_OVERFLOW"
    else if pyIn "global-buffer-overflow" crash_lower then "GLOBAL_BUFFER_OVERFLOW"
    else if pyIn "use-after-free" crash_lower then "USE_AFTER_FREE"
    else if pyIn "heap-use-after-free" crash_lower then "USE_AFTER_FREE"
    else if pyIn "double-free" crash_lower then "DOUBLE_FREE"
    else if pyIn "null" crash_lower || pyIn "nullptr" crash_lower then "NULL_POINTER"
    else if pyIn "segv" crash_lower || pyIn "segmentation fault" crash_lower then
      "SEGMENTATION_FAULT"
    else if pyIn "stack-overflow" crash_lower then "STACK_OVERFLOW"
    else if pyIn "integer-overflow" crash_lower then "INTEGER_OVERFLOW"
    else if pyIn "undefined behavior" crash_lower then "UNDEFINED_BEHAVIOR"
    else if pyIn "assertion" crash_lower || pyIn "assert" crash_lower then
      "ASSERTION_FAILURE"
    else "UNKNOWN"

/-- `classify_bug_type` from `validator/arvo_data_loader.py`: the fallback
classification from the `crash_type` field — a five-entry keyword table,
then `crash_type.upper().replace('-', '_').replace(' ', '_')`. -/
def classify_bug_type (crash_type : String) : String :=
  if crash_type = "" then "UNKNOWN"
  else
    let crash_lower := pyLower crash_type
    if pyIn "heap-buffer-overflow" crash_lower then "HEAP_BUFFER_OVERFLOW"
    else if pyIn "stack-buffer-overflow" crash_lower then "STACK_BUFFER_OVERFLOW"
    else if pyIn "use-after-free" crash_lower then "USE_AFTER_FREE"
    else if pyIn "null" crash_lower then "NULL_POINTER"
    else if pyIn "segv" crash_lower then "SEGMENTATION_FAULT"
    else pyReplace (pyReplace (pyUpper crash_type) "-" "_") " " "_"

/-- The `bug_category` computed by `load_bug_data` (lines 63–73):
classified from `crash_output` when present, from `crash_type` otherwise. -/
def load_bug_data_bug_category (crash_output crash_type : String) : String :=
  if crash_output ≠ "" then extract_crash_context_bug_category crash_output
  else classify_bug_type crash_type

/-! ## `workflow/nodes.py`: patch generation

`analyze_bug_from_data` packages the bug data into a small dict; the
generator nodes consume it together with the optional fetched code
(`fetch_code_context` returns `Option (code, path)`) and the model
response.  The external generation capability's outcome is modelled as
raising (`exc`), a safety block (`response.text is None`, `blocked`), or a
text completion. -/

/-- The dict produced by `analyze_bug_from_data`. -/
structure Analysis where
  file_path : String
  line_number : String
  bug_type : String
  fix_hint : String
  language : String

/-- Python `s.isdigit()` (ASCII digits). -/
def pyIsDigit (s : String) : Bool := !s.toList.isEmpty && s.toList.all (·.isDigit)

/-- Python `int(s)` for a digit-only string. -/
def pyToNat (s : String) : Nat :=
  s.toList.foldl (fun acc c => acc * 10 + (c.toNat - '0'.toNat)) 0

/-- Decimal digits to a natural number. -/
def parseDigits (l : List Char) : Option Nat :=
  if l = [] then none
  else if l.all (·.isDigit) then
    some (l.foldl (fun acc c => acc * 10 + (c.toNat - '0'.toNat)) 0)
  else none

/-- Python `int(s)` on an already-stripped string: optional sign followed
by at least one digit, `none` when the parse raises `ValueError`. -/
def pyParseInt (l : List Char) : Option Int :=
  match l with
  | '+' :: ds => (parseDigits ds).map (fun n => (n : Int))
  | '-' :: ds => (parseDigits ds).map (fun n => -(n : Int))
  | ds => (parseDigits ds).map (fun n => (n : Int))

/-- `line.split('|', 1)[1].rstrip()` — the text after the first `|`,
right-stripped (the numbered-code format of the code fetcher). -/
def pipeContent (line : List Char) : String :=
  (rstripWs ((line.dropWhile (fun c => c ≠ '|')).tail)).asString

/-- The target-line search loop of `generate_realistic_patch`: first line
whose number (text before the first `|`, stripped, parsed as int) equals
`line_num`; yields its index and the right-stripped content after `|`. -/
def findTargetAux (line_num : Int) : Nat → List (List Char) → Option (Nat × String)
  | _, [] => none
  | i, line :: rest =>
    if '|' ∈ line then
      match pyParseInt (pyStrip (line.takeWhile (fun c => c ≠ '|'))) with
      | some n =>
        if n = line_num then some (i, pipeContent line)
        else findTargetAux line_num (i + 1) rest
      | none => findTargetAux line_num (i + 1) rest
    else findTargetAux line_num (i + 1) rest

/-- `context_before`: the up-to-three numbered lines before the target. -/
def contextLinesBefore (lines : List (List Char)) (ti : Nat) : List String :=
  ((lines.take ti).drop (ti - 3)).filterMap
    (fun line => if '|' ∈ line then some (pipeContent line) else none)

/-- `context_after`: the up-to-three numbered lines after the target. -/
def contextLinesAfter (lines : List (List Char)) (ti : Nat) : List String :=
  ((lines.drop (ti + 1)).take 3).filterMap
    (fun line => if '|' ∈ line then some (pipeContent line) else none)

/-- `' ' * (len(content) - len(content.lstrip()))`. -/
def indentStrOf (target : String) : String :=
  (List.replicate (target.toList.length - (lstripWs target.toList).length) ' ').asString

/-- `\w` on ASCII: letters, digits, underscore. -/
def isWordChar (c : Char) : Bool := c.isAlphanum || c = '_'

/-- One anchored attempt of `re.search(r'(\w+)\[([^\]]+)\]', s)`: a
maximal nonempty word-character run, then `[`, then a nonempty run of
non-`]` characters, then `]`.  (Backtracking cannot help: shortening
either greedy run leaves a character that cannot match the next literal.) -/
def regexNameBracketAt (l : List Char) : Option (List Char × List Char) :=
  let w := l.takeWhile isWordChar
  if w.isEmpty then none
  else
    match l.drop w.length with
    | '[' :: r =>
      let ix := r.takeWhile (fun c => c ≠ ']')
      if ix.isEmpty then none
      else
        match r.drop ix.length with
        | ']' :: _ => some (w, ix)
        | _ => none
    | _ => none

/-- `re.search(r'(\w+)\[([^\]]+)\]', s)`: leftmost match. -/
def regexNameBracketSearch : List Char → Option (List Char × List Char)
  | [] => none
  | x :: xs =>
    match regexNameBracketAt (x :: xs) with
    | some res => some res
    | none => regexNameBracketSearch xs

/-- The `--- a/…\n+++ b/…\n@@ -n,o +n,m @@` header common to the built
patches. -/
def patch_header (file_path : String) (line_num : Nat) (old_count new_count : String) :
    String :=
  "--- a/" ++ (file_path ++ ("\n+++ b/" ++ (file_path ++ ("\n@@" ++
    (" -" ++ (toString line_num ++ ("," ++ (old_count ++ (" +" ++
    (toString line_num ++ ("," ++ (new_count ++ " @@"))))))))))))

/-- The bounds-check patch built from actual code for
`HEAP_BUFFER_OVERFLOW` with a matched `name[index]` (source lines
100–114; built up exactly as the `patch += …` chain). -/
def heap_guard_patch (file_path : String) (line_num : Nat)
    (context_before context_after : List String)
    (target indent_str array_name index_expr : String) : String :=
  let header := patch_header file_path line_num "6" "9"
  let p1 := header ++ String.join (context_before.map (fun line => "\n " ++ line))
  let p2 := p1 ++ ("\n+" ++ (indent_str ++ ("if (" ++ (index_expr ++
    (" >= 0 && static_cast<size_t>(" ++ (index_expr ++ (") < " ++ (array_name ++
    "_size) \x7b"))))))))
  let p3 := p2 ++ ("\n " ++ target)
  let p4 := p3 ++ ("\n+" ++ (indent_str ++ "\x7d"))
  let p5 := p4 ++ String.join ((context_after.take 2).map (fun line => "\n " ++ line))
  pyStripStr p5

/-- The generic safety-comment patch built from actual code (source lines
117–133). -/
def generic_safety_patch (file_path : String) (line_num : Nat)
    (context_before context_after : List String)
    (target indent_str : String) : String :=
  let header := patch_header file_path line_num "6" "9"
  let p1 := header ++ String.join (context_before.map (fun line => "\n " ++ line))
  let p2 := p1 ++ ("\n+" ++ (indent_str ++ "// Add safety check here"))
  let p3 := p2 ++ ("\n " ++ target)
  let p4 := p3 ++ String.join ((context_after.take 2).map (fun line => "\n " ++ line))
  pyStripStr p4

/-- The minimal template patches keyed on bug type (source lines
135–175); all four share the same header shape. -/
def template_patch (bug_type file_path : String) (line_num : Nat) : String :=
  let header := patch_header file_path line_num "5" "8"
  if bug_type = "HEAP_BUFFER_OVERFLOW" then
    pyStripStr (header ++
      "\n     // Context line before\n+    if (index >= 0 && static_cast<size_t>(index) < buffer_size) \x7b\n         buffer[index] = value;\n+    \x7d\n     // Context line after")
  else if bug_type = "NULL_POINTER" then
    pyStripStr (header ++
      "\n     // Context line before\n+    if (ptr != nullptr) \x7b\n         ptr->member = value;\n+    \x7d\n     // Context line after")
  else if bug_type = "USE_AFTER_FREE" then
    pyStripStr (header ++
      "\n     // Context line before\n+    if (ptr != nullptr) \x7b\n         ptr->member = value;\n+    \x7d\n     // Context line after")
  else
    pyStripStr (header ++
      "\n     // Context line before\n+    // Add safety check\n     risky_operation();\n     // Context line after")

/-- The patch built from actual code: bounds check for a matched heap
overflow, otherwise the generic safety comment. -/
def realistic_from_code (bug_type file_path : String) (line_num : Nat)
    (lines : List (List Char)) (ti : Nat) (target : String) : String :=
  let context_before := contextLinesBefore lines ti
  let context_after := contextLinesAfter lines ti
  let indent_str := indentStrOf target
  if bug_type = "HEAP_BUFFER_OVERFLOW" ∧ '[' ∈ target.toList ∧ ']' ∈ target.toList then
    match regexNameBracketSearch target.toList with
    | some (array_name, index_expr) =>
      heap_guard_patch file_path line_num context_before context_after target
        indent_str array_name.asString index_expr.asString
    | none =>
      generic_safety_patch file_path line_num context_before context_after target
        indent_str
  else
    generic_safety_patch file_path line_num context_before context_after target
      indent_str

/-- The body of `generate_realistic_patch` once `file_path` and
`line_num` are resolved: use the fetched code when truthy and a target
line is found with nonempty content, otherwise the bug-type template. -/
def generate_realistic_patch_core (bug_type file_path : String) (line_num : Nat)
    (actual_code : Option String) : String :=
  match actual_code with
  | some code =>
    if code ≠ "" then
      match findTargetAux (line_num : Int) 0 (pySplitlines code.toList) with
      | some (ti, target) =>
        if target ≠ "" then
          realistic_from_code bug_type file_path line_num
            (pySplitlines code.toList) ti target
        else template_patch bug_type file_path line_num
      | none => template_patch bug_type file_path line_num
    else template_patch bug_type file_path line_num
  | none => template_patch bug_type file_path line_num

/-- `generate_realistic_patch` from `workflow/nodes.py`:
`actual_file_path` wins over the cleaned analysis path when truthy;
`line_num` parses `analysis['line_number']` with fallback 100. -/
def generate_realistic_patch (analysis : Analysis)
    (actual_code : Option String) (actual_file_path : Option String) : String :=
  let file_path :=
    match actual_file_path with
    | some p => if p ≠ "" then p else clean_file_path analysis.file_path
    | none => clean_file_path analysis.file_path
  let line_num : Nat :=
    if pyIsDigit analysis.line_number then pyToNat analysis.line_number else 100
  generate_realistic_patch_core analysis.bug_type file_path line_num actual_code

/-! ### `clean_gemini_patch_output` -/

/-- One pass of `re.sub(pat + r'\s*\n', '', ·)` for a literal `pat`: at
each occurrence of `pat`, the greedy `\s*\n` consumes the following
whitespace run up to and including its last newline; if that run contains
no newline the position does not match.  The `Nat` fuel is kept at least
the list length so the recursion is structural. -/
def subFenceWsNl (pat : List Char) : Nat → List Char → List Char
  | _, [] => []
  | 0, l => l
  | fuel + 1, x :: xs =>
    if pat.isPrefixOf (x :: xs) then
      let rest := (x :: xs).drop pat.length
      let w := rest.takeWhile isPyWs
      let r' := w.reverse.dropWhile (fun c => c ≠ '\n')
      if r'.isEmpty then x :: subFenceWsNl pat fuel xs
      else subFenceWsNl pat fuel (rest.drop r'.length)
    else x :: subFenceWsNl pat fuel xs

/-- Is this line a patch-start marker (`---` but not `---EXPLANATION`, or
`diff --git`)? -/
def isPatchStartLine (line : List Char) : Bool :=
  ("---".toList.isPrefixOf line && !("---EXPLANATION".toList.isPrefixOf line)) ||
    "diff --git".toList.isPrefixOf line

/-- Does this line (after stripping) end the patch body? (nonempty and not
a valid diff-line shape). -/
def isPatchBreakLine (line : List Char) : Bool :=
  let s := pyStrip line
  !s.isEmpty &&
    !("---".toList.isPrefixOf s || "+++".toList.isPrefixOf s ||
      "@@".toList.isPrefixOf s || "+".toList.isPrefixOf s ||
      "-".toList.isPrefixOf s || " ".toList.isPrefixOf s ||
      "diff --git".toList.isPrefixOf s || s.isEmpty)

/-- `clean_gemini_patch_output` from `workflow/nodes.py`: strip code
fences, locate the first `---`/`diff --git` line, truncate at the first
following non-diff line, and strip; when no start marker is found, return
the raw output stripped. -/
def clean_gemini_patch_output (raw_output : String) : String :=
  let cleaned1 := subFenceWsNl "```diff".toList raw_output.toList.length raw_output.toList
  let cleaned2 := subFenceWsNl "```".toList cleaned1.length cleaned1
  let cleaned3 := replaceChars "```".toList [] cleaned2
  let lines := pySplitlines cleaned3
  match lines.findIdx? isPatchStartLine with
  | none => pyStripStr raw_output
  | some patch_start =>
    let patch_end :=
      match (lines.drop (patch_start + 1)).findIdx? isPatchBreakLine with
      | some k => patch_start + 1 + k
      | none => lines.length
    (pyStrip (joinChar '\n' ((lines.drop patch_start).take (patch_end - patch_start)))).asString

/-! ### `validate_patch_format` -/

/-- The leading-lines check of `validate_patch_format` (first five lines
must be headers, `diff --git`, `index `, or blank). -/
def firstFiveErrorsAux : Nat → List (List Char) → List String
  | _, [] => []
  | i, line :: rest =>
    (if !line.isEmpty &&
        !("---".toList.isPrefixOf line || "+++".toList.isPrefixOf line ||
          "diff --git".toList.isPrefixOf line || "index ".toList.isPrefixOf line ||
          (pyStrip line).isEmpty) then
      ["Line " ++ toString (i + 1) ++ ": Unexpected content before patch: '" ++
        (line.take 50).asString ++ "'"]
    else []) ++ firstFiveErrorsAux (i + 1) rest

/-- `validate_patch_format` from `workflow/nodes.py`: `(is_valid, errors)`. -/
def validate_patch_format (patch : String) : Bool × List String :=
  if pyStripStr patch = "" then (false, ["Patch is empty"])
  else
    let lines := pySplitlines patch.toList
    let has_minus_header := lines.any (fun line => "---".toList.isPrefixOf line)
    let has_plus_header := lines.any (fun line => "+++".toList.isPrefixOf line)
    let has_hunk := lines.any (fun line => "@@".toList.isPrefixOf line)
    let errors :=
      (if !has_minus_header then ["Missing '---' file header"] else []) ++
      (if !has_plus_header then ["Missing '+++' file header"] else []) ++
      (if !has_hunk then ["Missing '@@ hunk header"] else []) ++
      (if pyIn "```" patch then ["Contains markdown code blocks (```)"] else []) ++
      firstFiveErrorsAux 0 (lines.take 5)
    (errors.isEmpty, errors)

/-! ### The generator nodes' stored patch -/

/-- Outcome of the external generation capability: an exception during the
call, a safety block (`response.text is None`), or a text completion. -/
inductive GenResponse where
  | exc : GenResponse
  | blocked : GenResponse
  | text : String → GenResponse

/-- The `current_patch` stored by `lightweight_patch_generator_node`:
template fallback when the client is unavailable, the call raises, the
response is blocked, or the cleaned output fails format validation;
otherwise the cleaned model patch. -/
def lightweight_patch_generator_stored (client_available : Bool)
    (code_result : Option (String × String)) (analysis : Analysis)
    (resp : GenResponse) : String :=
  let actual_code := code_result.map Prod.fst
  let actual_file_path := code_result.map Prod.snd
  if !client_available then generate_realistic_patch analysis actual_code actual_file_path
  else
    match resp with
    | .exc => generate_realistic_patch analysis actual_code actual_file_path
    | .blocked => generate_realistic_patch analysis actual_code actual_file_path
    | .text raw =>
      let cleaned := clean_gemini_patch_output raw
      if (validate_patch_format cleaned).1 then cleaned
      else generate_realistic_patch analysis actual_code actual_file_path

/-- The `current_patch` stored by `refinement_patch_generator_node`: the
same fallback structure (the source re-fetches the code inside each
fallback branch; `code_result` is that fetch's outcome). -/
def refinement_patch_generator_stored (client_available : Bool)
    (code_result : Option (String × String)) (analysis : Analysis)
    (resp : GenResponse) : String :=
  let actual_code := code_result.map Prod.fst
  let actual_file_path := code_result.map Prod.snd
  if !client_available then generate_realistic_patch analysis actual_code actual_file_path
  else
    match resp with
    | .exc => generate_realistic_patch analysis actual_code actual_file_path
    | .blocked => generate_realistic_patch analysis actual_code actual_file_path
    | .text raw =>
      let cleaned := clean_gemini_patch_output raw
      if (validate_patch_format cleaned).1 then cleaned
      else generate_realistic_patch analysis actual_code actual_file_path

/-- §3 structural invariant for patch candidates: nonempty, with a `---`
line, a `+++` line, and an `@@` line. -/
def wellFormedPatch (patch : String) : Bool :=
  !patch.toList.isEmpty &&
  (pySplitlines patch.toList).any (fun line => "---".toList.isPrefixOf line) &&
  (pySplitlines patch.toList).any (fun line => "+++".toList.isPrefixOf line) &&
  (pySplitlines patch.toList).any (fun line => "@@".toList.isPrefixOf line)

/-! ## Theorems -/

/-! ### Lemmas about `splitOnChar` / `joinChar` -/

theorem splitOnChar_cons_self (c : Char) (b : List Char) :
    splitOnChar c (c :: b) = [] :: splitOnChar c b := by
  simp [splitOnChar]

theorem splitOnChar_cons_ne {x c : Char} (hx : x ≠ c) (b : List Char) :
    splitOnChar c (x :: b) = (splitOnChar c b).modifyHead (fun h => x :: h) := by
  simp [splitOnChar, hx]

theorem splitOnChar_ne_nil (c : Char) (l : List Char) : splitOnChar c l ≠ [] := by
  induction l with
  | nil => simp [splitOnChar]
  | cons x xs ih =>
    unfold splitOnChar
    by_cases hx : x = c
    · simp [hx]
    · cases h : splitOnChar c xs with
      | nil => exact absurd h ih
      | cons hh tt => simp [hx, h]

/-- Splitting a list that does not contain the separator yields the list
itself as the single piece. -/
theorem splitOnChar_of_not_mem {c : Char} {l : List Char} (h : c ∉ l) :
    splitOnChar c l = [l] := by
  induction l with
  | nil => rfl
  | cons x xs ih =>
    have hx : x ≠ c := fun he => h (he ▸ List.mem_cons_self _ _)
    rw [splitOnChar_cons_ne hx, ih (fun hm => h (List.mem_cons_of_mem _ hm)),
      List.modifyHead_cons]

theorem splitOnChar_append_cons {c : Char} {a : List Char} (b : List Char)
    (ha : c ∉ a) : splitOnChar c (a ++ c :: b) = a :: splitOnChar c b := by
  induction a with
  | nil =>
    show splitOnChar c (c :: b) = [] :: splitOnChar c b
    simp [splitOnChar]
  | cons x xs ih =>
    have hx : x ≠ c := fun he => ha (he ▸ List.mem_cons_self _ _)
    have hxs : c ∉ xs := fun hm => ha (List.mem_cons_of_mem _ hm)
    rw [List.cons_append, splitOnChar_cons_ne hx, ih hxs, List.modifyHead_cons]

/-- Round trip: joining nonempty, separator-free pieces and re-splitting
recovers the pieces. -/
theorem splitOnChar_joinChar {c : Char} {pieces : List (List Char)}
    (hne : pieces ≠ []) (hfree : ∀ p ∈ pieces, c ∉ p) :
    splitOnChar c (joinChar c pieces) = pieces := by
  induction pieces with
  | nil => exact absurd rfl hne
  | cons p rest ih =>
    cases rest with
    | nil =>
      show splitOnChar c p = [p]
      exact splitOnChar_of_not_mem (hfree p (List.mem_cons_self _ _))
    | cons q rest' =>
      show splitOnChar c (p ++ c :: joinChar c (q :: rest')) = p :: q :: rest'
      rw [splitOnChar_append_cons _ (hfree p (List.mem_cons_self _ _))]
      rw [ih (by simp) (fun x hx => hfree x (List.mem_cons_of_mem _ hx))]

/-- Every piece produced by `splitOnChar` is free of the separator. -/
theorem not_mem_of_mem_splitOnChar {c : Char} {l : List Char} {p : List Char}
    (hp : p ∈ splitOnChar c l) : c ∉ p := by
  induction l generalizing p with
  | nil =>
    simp [splitOnChar] at hp
    simp [hp]
  | cons x xs ih =>
    unfold splitOnChar at hp
    by_cases hx : x = c
    · rw [if_pos hx] at hp
      rcases List.mem_cons.mp hp with hp | hp
      · simp [hp]
      · exact ih hp
    · rw [if_neg hx] at hp
      cases h : splitOnChar c xs with
      | nil => exact absurd h (splitOnChar_ne_nil c xs)
      | cons hh tt =>
        rw [h, List.modifyHead_cons] at hp
        rcases List.mem_cons.mp hp with hp | hp
        · subst hp
          intro hmem
          rcases List.mem_cons.mp hmem with he | hmem'
          · exact hx he.symm
          · exact ih (by rw [h]; exact List.mem_cons_self _ _) hmem'
        · exact ih (by rw [h]; exact List.mem_cons_of_mem _ hp)

/-! ### Lemmas about `resolveStep` -/

/-- Elements of the resolved segment list come from the accumulator or are
"good" parts of the input (nonempty, not `.`, not `..`). -/
theorem mem_foldl_resolveStep {parts : List (List Char)} {acc : List (List Char)}
    {x : List Char} (hx : x ∈ parts.foldl resolveStep acc) :
    x ∈ acc ∨ (x ∈ parts ∧ x ≠ [] ∧ x ≠ ['.'] ∧ x ≠ ['.', '.']) := by
  induction parts generalizing acc with
  | nil => exact Or.inl hx
  | cons p rest ih =>
    rw [List.foldl_cons] at hx
    rcases ih hx with hacc | ⟨hmem, h1, h2, h3⟩
    · by_cases hdd : p = ['.', '.']
      · simp only [resolveStep, if_pos hdd] at hacc
        exact Or.inl (List.dropLast_subset _ hacc)
      · by_cases hgood : p ≠ [] ∧ p ≠ ['.']
        · simp only [resolveStep, if_neg hdd, if_pos hgood] at hacc
          rcases List.mem_append.mp hacc with h | h
          · exact Or.inl h
          · have hxp : x = p := List.mem_singleton.mp h
            subst hxp
            exact Or.inr ⟨List.mem_cons_self _ _, hgood.1, hgood.2, hdd⟩
        · simp only [resolveStep, if_neg hdd, if_neg hgood] at hacc
          exact Or.inl hacc
    · exact Or.inr ⟨List.mem_cons_of_mem _ hmem, h1, h2, h3⟩

/-- Folding `resolveStep` over parts that are all "good" just appends them. -/
theorem foldl_resolveStep_of_good {parts : List (List Char)}
    (h : ∀ p ∈ parts, p ≠ [] ∧ p ≠ ['.'] ∧ p ≠ ['.', '.']) (acc : List (List Char)) :
    parts.foldl resolveStep acc = acc ++ parts := by
  induction parts generalizing acc with
  | nil => simp
  | cons p rest ih =>
    obtain ⟨h1, h2, h3⟩ := h p (List.mem_cons_self _ _)
    rw [List.foldl_cons]
    have hstep : resolveStep acc p = acc ++ [p] := by
      unfold resolveStep
      rw [if_neg h3, if_pos ⟨h1, h2⟩]
    rw [hstep, ih (fun q hq => h q (List.mem_cons_of_mem _ hq))]
    simp

/-- `joinChar` over a nonempty list of pieces starts with the head piece. -/
theorem joinChar_cons_eq (c : Char) (r : List Char) (rest : List (List Char)) :
    ∃ t, joinChar c (r :: rest) = r ++ t := by
  cases rest with
  | nil => exact ⟨[], by simp [joinChar]⟩
  | cons q rest' => exact ⟨c :: joinChar c (q :: rest'), rfl⟩

/-! ### C9: `clean_file_path` is idempotent -/

/-- A `/`-join of nonempty slash-free segments starts with a non-slash
character (when there is at least one segment). -/
theorem joinChar_shape {R : List (List Char)}
    (hgood : ∀ x ∈ R, x ≠ []) (hfree : ∀ x ∈ R, '/' ∉ x) (hne : R ≠ []) :
    ∃ rh rt, joinChar '/' R = rh :: rt ∧ rh ≠ '/' := by
  cases R with
  | nil => exact absurd rfl hne
  | cons r R' =>
    obtain ⟨t, hjoin⟩ := joinChar_cons_eq '/' r R'
    have hrne : r ≠ [] := hgood r (List.mem_cons_self _ _)
    have hrfree : '/' ∉ r := hfree r (List.mem_cons_self _ _)
    cases r with
    | nil => exact absurd rfl hrne
    | cons rh rt =>
      refine ⟨rh, rt ++ t, by rw [hjoin]; rfl, ?_⟩
      intro he
      exact hrfree (he ▸ List.mem_cons_self _ _)

/-- `cleanFilePathChars` fixes any `/`-join of nonempty slash-free good
segments. -/
theorem cleanFilePathChars_join_fixed {R : List (List Char)}
    (hgood : ∀ x ∈ R, x ≠ [] ∧ x ≠ ['.'] ∧ x ≠ ['.', '.'])
    (hfree : ∀ x ∈ R, '/' ∉ x) :
    cleanFilePathChars (joinChar '/' R) = joinChar '/' R := by
  cases hR0 : R with
  | nil => rfl
  | cons r R' =>
    rw [← hR0]
    obtain ⟨rh, rt, hjoin', hrh⟩ :=
      joinChar_shape (fun x hx => (hgood x hx).1) hfree (by rw [hR0]; simp)
    have hne : joinChar '/' R ≠ [] := by rw [hjoin']; simp
    have hnosrc : ("/src/".toList.isPrefixOf (joinChar '/' R)) = false := by
      rw [hjoin']
      have h5 : "/src/".toList = '/' :: "src/".toList := rfl
      rw [h5, List.isPrefixOf_cons₂]
      have hbeq : (('/' : Char) == rh) = false := by
        simp [Ne.symm hrh]
      rw [hbeq, Bool.false_and]
    unfold cleanFilePathChars
    rw [if_neg hne]
    rw [if_neg (by rw [hnosrc]; simp)]
    rw [splitOnChar_joinChar (by rw [hR0]; simp) hfree]
    rw [foldl_resolveStep_of_good hgood []]
    rw [List.nil_append]
    rw [hjoin']
    rw [List.dropWhile_cons_of_neg (by simp [hrh])]

/-- The output of `cleanFilePathChars` is always a join of good slash-free
segments. -/
theorem cleanFilePathChars_eq_join (l : List Char) :
    ∃ R : List (List Char),
      (∀ x ∈ R, x ≠ [] ∧ x ≠ ['.'] ∧ x ≠ ['.', '.']) ∧
      (∀ x ∈ R, '/' ∉ x) ∧
      cleanFilePathChars l = joinChar '/' R := by
  by_cases hl : l = []
  · exact ⟨[], by simp, by simp, by rw [hl]; rfl⟩
  · refine ⟨((splitOnChar '/'
        (if "/src/".toList.isPrefixOf l then l.drop 5 else l)).foldl resolveStep []),
      ?_, ?_, ?_⟩
    · intro x hx
      rcases mem_foldl_resolveStep hx with h | ⟨_, h1, h2, h3⟩
      · simp at h
      · exact ⟨h1, h2, h3⟩
    · intro x hx
      rcases mem_foldl_resolveStep hx with h | ⟨hmem, _, _, _⟩
      · simp at h
      · exact not_mem_of_mem_splitOnChar hmem
    · unfold cleanFilePathChars
      rw [if_neg hl]
      set R := ((splitOnChar '/'
        (if "/src/".toList.isPrefixOf l then l.drop 5 else l)).foldl resolveStep []) with hR
      have hgood : ∀ x ∈ R, x ≠ [] ∧ x ≠ ['.'] ∧ x ≠ ['.', '.'] := by
        intro x hx
        rcases mem_foldl_resolveStep (hR ▸ hx) with h | ⟨_, h1, h2, h3⟩
        · simp at h
        · exact ⟨h1, h2, h3⟩
      have hfree : ∀ x ∈ R, '/' ∉ x := by
        intro x hx
        rcases mem_foldl_resolveStep (hR ▸ hx) with h | ⟨hmem, _, _, _⟩
        · simp at h
        · exact not_mem_of_mem_splitOnChar hmem
      cases hR0 : R with
      | nil => rfl
      | cons r R' =>
        rw [← hR0]
        obtain ⟨rh, rt, hjoin', hrh⟩ :=
          joinChar_shape (fun x hx => (hgood x hx).1) hfree (by rw [hR0]; simp)
        rw [hjoin']
        rw [List.dropWhile_cons_of_neg (by simp [hrh])]

theorem cleanFilePathChars_idem (l : List Char) :
    cleanFilePathChars (cleanFilePathChars l) = cleanFilePathChars l := by
  obtain ⟨R, hgood, hfree, hout⟩ := cleanFilePathChars_eq_join l
  rw [hout]
  exact cleanFilePathChars_join_fixed hgood hfree

/-- C9: the path-cleaning function is idempotent: applying
`clean_file_path` twice yields the same result as applying it once, for
every input string — in particular for those containing `/../` segments,
a leading `/src/` prefix, or leading `../` sequences. -/
theorem clean_file_path_idempotent (s : String) :
    clean_file_path (clean_file_path s) = clean_file_path s := by
  unfold clean_file_path
  rw [List.toList_asString, cleanFilePathChars_idem]

/-- The node's success test agrees with the §3 success predicate. -/
theorem validation_node_success_eq (r : ValidatorResult) :
    validation_node_success r = success_predicate r := by
  rcases r with ⟨c, p, f, lg, cl⟩
  cases c <;> cases p <;> cases f <;> rfl

/-- Router inversion: a `"refine"` answer means the router's success
criterion failed and the retry budget was not exceeded. -/
theorem router_refine_inv {d : ValidationResultDict} {rc mx : Int}
    (h : router_validate d rc mx = "refine") :
    (!(d.poc_crash_detected.getD true) && d.functional_tests_passed.getD false) = false ∧
      ¬(rc > mx) := by
  unfold router_validate at h
  by_cases h1 : (!(d.poc_crash_detected.getD true) && d.functional_tests_passed.getD false) = true
  · rw [if_pos h1] at h
    exact absurd h (by decide)
  · refine ⟨by simpa using h1, ?_⟩
    intro h2
    rw [if_neg h1, if_pos h2] at h
    exact absurd h (by decide)

/-- A node-successful outcome always routes to `"success"`. -/
theorem node_success_router_success {r : ValidatorResult} {rc mx : Int}
    (h : validation_node_success r = true) :
    router_validate (validation_node_dict r) rc mx = "success" := by
  rcases r with ⟨c, p, f, lg, cl⟩
  cases c <;> cases p <;> cases f <;>
    simp_all [validation_node_success, router_validate, validation_node_dict]

/-- Invariant giving the loop bound: from retry count `rc` at most
`(max_retries - rc).toNat + 1` further `validate` calls happen. -/
theorem loop_validate_calls_le (max_retries : Int)
    (outcomes : List ValidatorResult) :
    ∀ rc : Int,
      loop_validate_calls max_retries outcomes rc ≤ (max_retries - rc).toNat + 1 := by
  induction outcomes with
  | nil => intro rc; simp [loop_validate_calls]
  | cons r rest ih =>
    intro rc
    unfold loop_validate_calls
    by_cases hroute :
        router_validate (validation_node_dict r) (validation_node_retry r rc) max_retries
          = "refine"
    · rw [if_pos hroute]
      cases hs : validation_node_success r with
      | true => exact absurd (node_success_router_success hs) (by rw [hroute]; decide)
      | false =>
        have hrc' : validation_node_retry r rc = rc + 1 := by
          simp [validation_node_retry, hs]
        have hle : ¬(rc + 1 > max_retries) := by
          have := (router_refine_inv hroute).2
          rwa [hrc'] at this
        have hrec := ih (validation_node_retry r rc)
        rw [hrc'] at hrec ⊢
        omega
    · rw [if_neg hroute]
      omega

/-! ### C1: what the router's success decision actually tests -/

/-- C1 counterexample: a reachable validation outcome with
`compiled = false`, `poc_crash_detected = false`,
`functional_tests_passed = true` is routed to `"success"` although the §3
success predicate is false — the router never consults `compiled`, so the
claimed "if and only if" fails. -/
theorem router_success_despite_predicate_false :
    router_validate
      (validation_node_dict
        { compiled := false, poc_crash_detected := false,
          functional_tests_passed := true, poc_output := "", compile_log := "" }) 0 3
      = "success" ∧
    success_predicate
      { compiled := false, poc_crash_detected := false,
        functional_tests_passed := true, poc_output := "", compile_log := "" } = false := by
  exact ⟨rfl, rfl⟩

/-- C1 (amended): `router_validate` returns `"success"` iff
`poc_crash_detected` (defaulting to true when missing) is false and
`functional_tests_passed` (defaulting to false) is true — `compiled` is
not consulted; and whenever the full §3 predicate holds the route is
`"success"` regardless of `retry_count` and `max_retries`. -/
theorem router_success_iff :
    (∀ (d : ValidationResultDict) (rc mx : Int),
       router_validate d rc mx = "success" ↔
         (d.poc_crash_detected.getD true = false ∧
          d.functional_tests_passed.getD false = true)) ∧
    (∀ (r : ValidatorResult) (rc mx : Int), success_predicate r = true →
       router_validate (validation_node_dict r) rc mx = "success") := by
  constructor
  · intro d rc mx
    unfold router_validate
    cases hp : d.poc_crash_detected.getD true <;>
      cases hf : d.functional_tests_passed.getD false <;>
        simp [hp, hf] <;> (split <;> decide)
  · intro r rc mx h
    rcases r with ⟨c, p, f, lg, cl⟩
    cases c <;> cases p <;> cases f <;>
      simp_all [success_predicate, router_validate, validation_node_dict]

/-- Witness for `router_success_iff`: the §3-successful outcome is routed
to success even with `retry_count` far above `max_retries`. -/
theorem router_success_iff_witness :
    router_validate
      (validation_node_dict
        { compiled := true, poc_crash_detected := false,
          functional_tests_passed := true, poc_output := "", compile_log := "" }) 99 0
      = "success" :=
  router_success_iff.2
    { compiled := true, poc_crash_detected := false,
      functional_tests_passed := true, poc_output := "", compile_log := "" } 99 0
    (by decide)

/-! ### C10: missing validation-result keys never route to success -/

/-- C10: with an empty `validation_result` dict, or one missing
`poc_crash_detected` or `functional_tests_passed`, the router never
returns `"success"` (missing `poc_crash_detected` behaves as `True`,
missing `functional_tests_passed` as `False`), so the route is `"refine"`
or `"give_up"`. -/
theorem router_missing_keys_never_success :
    (∀ (d : ValidationResultDict) (rc mx : Int),
       d.poc_crash_detected = none ∨ d.functional_tests_passed = none →
       router_validate d rc mx ≠ "success" ∧
         (router_validate d rc mx = "refine" ∨ router_validate d rc mx = "give_up")) ∧
    (∀ (c f : Option Bool) (lg : Option String) (rc mx : Int),
       router_validate ⟨c, none, f, lg⟩ rc mx =
         router_validate ⟨c, some true, f, lg⟩ rc mx) ∧
    (∀ (c p : Option Bool) (lg : Option String) (rc mx : Int),
       router_validate ⟨c, p, none, lg⟩ rc mx =
         router_validate ⟨c, p, some false, lg⟩ rc mx) := by
  refine ⟨?_, ?_, ?_⟩
  · intro d rc mx h
    have hsucc :
        (!(d.poc_crash_detected.getD true) && d.functional_tests_passed.getD false) = false := by
      rcases h with h | h <;> simp [h]
    unfold router_validate
    rw [if_neg (by simp [hsucc])]
    constructor
    · split <;> decide
    · split
      · exact Or.inr rfl
      · exact Or.inl rfl
  · intro c f lg rc mx; rfl
  · intro c p lg rc mx
    unfold router_validate
    simp

/-- Witness for `router_missing_keys_never_success`: the empty dict is not
routed to success. -/
theorem router_missing_keys_witness :
    router_validate ⟨none, none, none, none⟩ 0 3 ≠ "success" :=
  (router_missing_keys_never_success.1 ⟨none, none, none, none⟩ 0 3 (Or.inl rfl)).1

/-! ### C3: retry counter semantics -/

/-- Auxiliary: folding the retry update over all-failing outcomes adds the
number of outcomes. -/
theorem foldl_retry_all_fail (outcomes : List ValidatorResult)
    (h : ∀ o ∈ outcomes, success_predicate o = false) :
    ∀ rc : Int,
      List.foldl (fun rc o => validation_node_retry o rc) rc outcomes =
        rc + outcomes.length := by
  induction outcomes with
  | nil => intro rc; simp
  | cons r rest ih =>
    intro rc
    have hr : success_predicate r = false := h r (List.mem_cons_self _ _)
    have hstep : validation_node_retry r rc = rc + 1 := by
      rw [validation_node_retry, validation_node_success_eq, hr]
      simp
    rw [List.foldl_cons, hstep, ih (fun o ho => h o (List.mem_cons_of_mem _ ho))]
    simp
    omega

/-- C3: a `validate` call whose outcome fails the §3 success predicate
increments `retry_count` by exactly 1, a call meeting it leaves the
counter unchanged, and starting at 0 a run of N consecutive failing
validations ends with `retry_count = N`. -/
theorem retry_count_increment :
    (∀ (r : ValidatorResult) (rc : Int),
       (success_predicate r = false → validation_node_retry r rc = rc + 1) ∧
       (success_predicate r = true → validation_node_retry r rc = rc)) ∧
    (∀ outcomes : List ValidatorResult,
       (∀ o ∈ outcomes, success_predicate o = false) →
       List.foldl (fun rc o => validation_node_retry o rc) 0 outcomes =
         outcomes.length) := by
  constructor
  · intro r rc
    constructor
    · intro h
      rw [validation_node_retry, validation_node_success_eq, h]
      simp
    · intro h
      rw [validation_node_retry, validation_node_success_eq, h]
      simp
  · intro outcomes h
    rw [foldl_retry_all_fail outcomes h 0]
    omega

/-- Witness for `retry_count_increment`: one failing validation takes the
counter from 0 to 1, a successful one keeps it at 0. -/
theorem retry_count_increment_witness :
    validation_node_retry
      { compiled := true, poc_crash_detected := true,
        functional_tests_passed := false, poc_output := "", compile_log := "" } 0 = 0 + 1 :=
  (retry_count_increment.1
    { compiled := true, poc_crash_detected := true,
      functional_tests_passed := false, poc_output := "", compile_log := "" } 0).1 (by decide)

/-! ### C2: loop bound and the give-up clause -/

/-- C2 counterexample: a first validation with outcome
`compiled = false, poc_crash_detected = false,
functional_tests_passed = true` under `max_retries = 0` ends with
`retry_count = 1 > 0` and the §3 success predicate false, yet the router
answers `"success"`, not `"give_up"`. -/
theorem giveup_clause_fails :
    validation_node_retry
      { compiled := false, poc_crash_detected := false,
        functional_tests_passed := true, poc_output := "", compile_log := "" } 0 = 1 ∧
    success_predicate
      { compiled := false, poc_crash_detected := false,
        functional_tests_passed := true, poc_output := "", compile_log := "" } = false ∧
    ((1 : Int) > 0) ∧
    router_validate
      (validation_node_dict
        { compiled := false, poc_crash_detected := false,
          functional_tests_passed := true, poc_output := "", compile_log := "" }) 1 0
      = "success" := by
  exact ⟨rfl, rfl, by decide, rfl⟩

/-- C2 (amended): for `max_retries ≥ 0` the loop performs at most
`max_retries + 2` `validate` calls; `retry_count` never decreases; and as
soon as a `validate` call ends with `retry_count > max_retries` and the
*router's* success criterion (`poc_crash_detected` false and
`functional_tests_passed` true) false, the router returns `"give_up"`;
any non-`"refine"` route stops the loop after that call. -/
theorem validate_call_bound (max_retries : Int) (hmax : 0 ≤ max_retries) :
    (∀ outcomes : List ValidatorResult,
       loop_validate_calls max_retries outcomes 0 ≤ max_retries.toNat + 2) ∧
    (∀ (r : ValidatorResult) (rc : Int), rc ≤ validation_node_retry r rc) ∧
    (∀ (r : ValidatorResult) (rc : Int),
       validation_node_retry r rc > max_retries →
       (!(r.poc_crash_detected) && r.functional_tests_passed) = false →
       router_validate (validation_node_dict r) (validation_node_retry r rc) max_retries
         = "give_up") ∧
    (∀ (r : ValidatorResult) (rest : List ValidatorResult) (rc : Int),
       router_validate (validation_node_dict r) (validation_node_retry r rc) max_retries
         ≠ "refine" →
       loop_validate_calls max_retries (r :: rest) rc = 1) := by
  refine ⟨?_, ?_, ?_, ?_⟩
  · intro outcomes
    have := loop_validate_calls_le max_retries outcomes 0
    omega
  · intro r rc
    unfold validation_node_retry
    split <;> omega
  · intro r rc hgt hfail
    unfold router_validate
    rw [if_neg (by simp [validation_node_dict, hfail])]
    rw [if_pos hgt]
  · intro r rest rc hroute
    unfold loop_validate_calls
    rw [if_neg hroute]

/-- Witness for `validate_call_bound`: with `max_retries = 1` and a single
failing outcome the loop performs at most three validate calls. -/
theorem validate_call_bound_witness :
    loop_validate_calls 1
      [{ compiled := true, poc_crash_detected := true,
         functional_tests_passed := false, poc_output := "", compile_log := "" }] 0
      ≤ (1 : Int).toNat + 2 :=
  (validate_call_bound 1 (by decide)).1
    [{ compiled := true, poc_crash_detected := true,
       functional_tests_passed := false, poc_output := "", compile_log := "" }]

/-! ### Substring lemmas -/

theorem toList_append (x y : String) : (x ++ y).toList = x.toList ++ y.toList := rfl

theorem containsSub_iff {needle hay : List Char} :
    containsSub needle hay = true ↔ needle <:+: hay := by
  rw [containsSub, List.any_eq_true]
  constructor
  · rintro ⟨t, ht, hp⟩
    exact ((List.isPrefixOf_iff_prefix.mp hp).isInfix).trans
      ((List.mem_tails _ _).mp ht).isInfix
  · rintro ⟨u, v, rfl⟩
    refine ⟨needle ++ v, (List.mem_tails _ _).mpr ⟨u, by simp⟩, ?_⟩
    exact List.isPrefixOf_iff_prefix.mpr ⟨v, rfl⟩

/-- A substring of the right part is a substring of the concatenation. -/
theorem pyIn_append_right {needle y : String} (x : String)
    (h : pyIn needle y = true) : pyIn needle (x ++ y) = true := by
  unfold pyIn at h ⊢
  rw [containsSub_iff] at h ⊢
  rw [toList_append]
  obtain ⟨s, t, hst⟩ := h
  exact ⟨x.toList ++ s, t, by rw [← hst]; simp⟩

/-! ### C7: the result-analysis step -/

/-- C7: in the Validator's result-classification step `compiled` equals
(exit code `== 0` OR a crash signature found in the combined output) and
`functionalTestsPassed` equals the negation of `pocCrashDetected`; and
whenever steps 1–2 pass, `run_validation` returns exactly this
classification of the reproducer invocation. -/
theorem validator_result_analysis :
    (∀ (ec : Int) (out err : String),
       (classify_poc_result ec out err).compiled
         = ((ec == 0) || crash_signature_found (out ++ err)) ∧
       (classify_poc_result ec out err).poc_crash_detected
         = crash_signature_found (out ++ err) ∧
       (classify_poc_result ec out err).functional_tests_passed
         = !(classify_poc_result ec out err).poc_crash_detected) ∧
    (∀ (exec : Exec) (bug_id repo_addr patch_diff buggy_commit reproducer_vul : String),
       (exec (setup_cmd_of bug_id repo_addr buggy_commit)).1 = 0 →
       ¬((exec (apply_cmd_of bug_id patch_diff)).1 ≠ 0 ∧
         pyIn "succeeded" (exec (apply_cmd_of bug_id patch_diff)).2.1 = false) →
       run_validation exec bug_id repo_addr patch_diff buggy_commit reproducer_vul
         = classify_poc_result (exec (docker_cmd_of bug_id reproducer_vul)).1
             (exec (docker_cmd_of bug_id reproducer_vul)).2.1
             (exec (docker_cmd_of bug_id reproducer_vul)).2.2) := by
  constructor
  · intro ec out err
    exact ⟨rfl, rfl, rfl⟩
  · intro exec bug_id repo_addr patch_diff buggy_commit reproducer_vul h1 h2
    unfold run_validation run_validation_trace
    rw [if_neg (by simp [h1]), if_neg h2]

/-- Witness for `validator_result_analysis`: an all-zero executor reaches
step 4 and yields its classification. -/
theorem validator_result_analysis_witness :
    run_validation (fun _ => ((0 : Int), "", "")) "1" "r" "p" "c" "v"
      = classify_poc_result 0 "" "" :=
  validator_result_analysis.2 (fun _ => ((0 : Int), "", "")) "1" "r" "p" "c" "v" rfl
    (by simp)

/-- C4 counterexample: when the `-p1` application fails, `run_validation`
returns the critical-failure outcome after issuing only the setup and the
single `-p1` patch command — even though the same patch command at `-p0`
would have succeeded on this executor.  There is no second application
attempt. -/
theorem patch_apply_no_p0_retry :
    (run_validation exec_patch_p1_fails "1" "r" "d" "c" "v").compiled = false ∧
    (run_validation exec_patch_p1_fails "1" "r" "d" "c" "v").poc_crash_detected = true ∧
    (run_validation exec_patch_p1_fails "1" "r" "d" "c" "v").functional_tests_passed
      = false ∧
    (exec_patch_p1_fails (pyReplace (apply_cmd_of "1" "d") "-p1" "-p0")).1 = 0 ∧
    (run_validation_trace exec_patch_p1_fails "1" "r" "d" "c" "v").2
      = [setup_cmd_of "1" "r" "c", apply_cmd_of "1" "d"] := by
  refine ⟨?_, ?_, ?_, ?_, ?_⟩ <;> decide

/-- C4 (amended): the patch is applied exactly once, with
`patch -p1 --batch --forward`; whenever that single application exits
nonzero with no `succeeded` in its stdout, the validator stops with the
critical-failure outcome and issues no further command. -/
theorem patch_apply_single_attempt :
    (∀ bug_id patch_diff : String,
       pyIn "patch -p1 --batch --forward" (apply_cmd_of bug_id patch_diff) = true) ∧
    (∀ (exec : Exec) (bug_id repo_addr patch_diff buggy_commit reproducer_vul : String),
       (exec (setup_cmd_of bug_id repo_addr buggy_commit)).1 = 0 →
       (exec (apply_cmd_of bug_id patch_diff)).1 ≠ 0 →
       pyIn "succeeded" (exec (apply_cmd_of bug_id patch_diff)).2.1 = false →
       run_validation_trace exec bug_id repo_addr patch_diff buggy_commit reproducer_vul
         = (critical_failure "Patch Apply Failed"
              ("Patch failed to apply cleanly. Stderr: " ++
                (exec (apply_cmd_of bug_id patch_diff)).2.2),
            [setup_cmd_of bug_id repo_addr buggy_commit, apply_cmd_of bug_id patch_diff])) := by
  constructor
  · intro bug_id patch_diff
    unfold apply_cmd_of apply_patch_cmd
    exact pyIn_append_right _ (by decide)
  · intro exec bug_id repo_addr patch_diff buggy_commit reproducer_vul h1 h2 h3
    unfold run_validation_trace
    rw [if_neg (by simp [h1]), if_pos ⟨h2, h3⟩]

/-- Witness for `patch_apply_single_attempt`. -/
theorem patch_apply_single_attempt_witness :
    run_validation_trace exec_patch_p1_fails "1" "r" "d" "c" "v"
      = (critical_failure "Patch Apply Failed"
           ("Patch failed to apply cleanly. Stderr: " ++
             (exec_patch_p1_fails (apply_cmd_of "1" "d")).2.2),
         [setup_cmd_of "1" "r" "c", apply_cmd_of "1" "d"]) :=
  patch_apply_single_attempt.2 exec_patch_p1_fails "1" "r" "d" "c" "v"
    (by decide) (by decide) (by decide)

/-! ### C5: "AddressSanitizer" output and the failure analyzer -/

/-- C5 counterexample: an output containing exactly `AddressSanitizer`
does set `poc_crash_detected = true`, but the Failure Analyzer (which
looks for `still crashing` / `asan error`) classifies the resulting logs
as `LOGIC_ERROR`, not `CRASH_PERSISTS`. -/
theorem asan_output_not_crash_persists :
    (classify_poc_result 1 "AddressSanitizer" "").poc_crash_detected = true ∧
    failure_analyzer_reason (classify_poc_result 1 "AddressSanitizer" "").poc_output
      (classify_poc_result 1 "AddressSanitizer" "").compiled = "LOGIC_ERROR" ∧
    failure_analyzer_reason (classify_poc_result 1 "AddressSanitizer" "").poc_output
      (classify_poc_result 1 "AddressSanitizer" "").compiled ≠ "CRASH_PERSISTS" := by
  refine ⟨?_, ?_, ?_⟩ <;> decide

/-- C5 (amended): for every reproducer run whose combined output contains
`addresssanitizer` case-insensitively, the Validator sets
`pocCrashDetected = true` (and `compiled = true`); the Failure Analyzer
classifies the resulting logs as `CRASH_PERSISTS` exactly when they
contain `still crashing` or `asan error` case-insensitively. -/
theorem asan_sets_crash_flag (ec : Int) (out err : String)
    (h : pyIn "addresssanitizer" (pyLower (out ++ err)) = true) :
    (classify_poc_result ec out err).poc_crash_detected = true ∧
    (classify_poc_result ec out err).compiled = true ∧
    (failure_analyzer_reason (classify_poc_result ec out err).poc_output
        (classify_poc_result ec out err).compiled = "CRASH_PERSISTS" ↔
      (pyIn "still crashing" (pyLower (out ++ err)) = true ∨
       pyIn "asan error" (pyLower (out ++ err)) = true)) := by
  have hsig : crash_signature_found (out ++ err) = true := by
    unfold crash_signature_found
    rw [h]
    simp
  refine ⟨?_, ?_, ?_⟩
  · show crash_signature_found (out ++ err) = true
    exact hsig
  · show ((ec == 0) || crash_signature_found (out ++ err)) = true
    rw [hsig]
    simp
  · show failure_analyzer_reason (out ++ err) ((ec == 0) || crash_signature_found (out ++ err)) = "CRASH_PERSISTS" ↔ _
    unfold failure_analyzer_reason
    by_cases hc : (pyIn "still crashing" (pyLower (out ++ err)) ||
        pyIn "asan error" (pyLower (out ++ err))) = true
    · rw [if_pos hc]
      simp only [Bool.or_eq_true] at hc
      simp [hc]
    · rw [if_neg hc]
      simp only [Bool.or_eq_true, not_or] at hc
      constructor
      · intro hcp
        exfalso
        revert hcp
        split <;> decide
      · intro hor
        rcases hor with hor | hor
        · exact absurd hor hc.1
        · exact absurd hor hc.2

/-- Witness for `asan_sets_crash_flag`. -/
theorem asan_sets_crash_flag_witness :
    (classify_poc_result 1 "AddressSanitizer" "").poc_crash_detected = true :=
  (asan_sets_crash_flag 1 "AddressSanitizer" "" (by decide)).1

/-! ### C8: the `crash_type` fallback classifier -/

/-- C8 counterexample: with empty `crashOutput`, the loader classifies
`crash_type = "Timeout"` as `TIMEOUT` (not `UNKNOWN`), and the fallback
table differs from the crash-output table: `classify_bug_type "assert"`
yields `ASSERT` while the crash-output classifier yields
`ASSERTION_FAILURE`. -/
theorem classify_fallback_differs :
    load_bug_data_bug_category "" "Timeout" = "TIMEOUT" ∧
    ("TIMEOUT" : String) ≠ "UNKNOWN" ∧
    classify_bug_type "assert" = "ASSERT" ∧
    extract_crash_context_bug_category "assert" = "ASSERTION_FAILURE" := by
  refine ⟨?_, ?_, ?_, ?_⟩ <;> decide

/-- C8 (amended): with empty `crashOutput` the loader classifies via
`classify_bug_type`, whose keyword table is the five-entry list
heap-buffer-overflow / stack-buffer-overflow / use-after-free / null /
segv; a `crash_type` matching none of them yields the `crash_type`
uppercased with `-` and space replaced by `_`, and `UNKNOWN` only for an
empty `crash_type`. -/
theorem classify_fallback_spec :
    (∀ crash_type : String,
       load_bug_data_bug_category "" crash_type = classify_bug_type crash_type) ∧
    classify_bug_type "" = "UNKNOWN" ∧
    (∀ crash_type : String, crash_type ≠ "" →
       pyIn "heap-buffer-overflow" (pyLower crash_type) = false →
       pyIn "stack-buffer-overflow" (pyLower crash_type) = false →
       pyIn "use-after-free" (pyLower crash_type) = false →
       pyIn "null" (pyLower crash_type) = false →
       pyIn "segv" (pyLower crash_type) = false →
       classify_bug_type crash_type
         = pyReplace (pyReplace (pyUpper crash_type) "-" "_") " " "_") := by
  refine ⟨?_, ?_, ?_⟩
  · intro crash_type
    unfold load_bug_data_bug_category
    simp
  · rfl
  · intro crash_type h0 h1 h2 h3 h4 h5
    unfold classify_bug_type
    rw [if_neg h0]
    simp [h1, h2, h3, h4, h5]

/-- Witness for `classify_fallback_spec`. -/
theorem classify_fallback_spec_witness :
    classify_bug_type "Timeout"
      = pyReplace (pyReplace (pyUpper "Timeout") "-" "_") " " "_" :=
  classify_fallback_spec.2.2 "Timeout" (by decide) (by decide) (by decide)
    (by decide) (by decide) (by decide)

/-! ### Prefix/infix helpers -/

theorem prefix_appendr {l a : List Char} (b : List Char) (h : l <+: a) :
    l <+: a ++ b :=
  h.trans (List.prefix_append a b)

theorem infix_appendl {l b : List Char} (a : List Char) (h : l <:+: b) :
    l <:+: a ++ b :=
  h.trans (List.suffix_append a b).isInfix

theorem infix_appendr {l a : List Char} (b : List Char) (h : l <:+: a) :
    l <:+: a ++ b :=
  h.trans (List.prefix_append a b).isInfix

/-- Right-stripping a list whose middle chunk ends in a non-whitespace
character keeps everything up to that chunk and strips only the tail. -/
theorem rstripWs_append (a bs c : List Char) (lb : Char) (hlb : isPyWs lb = false) :
    rstripWs (a ++ ((bs ++ [lb]) ++ c)) = a ++ ((bs ++ [lb]) ++ rstripWs c) := by
  unfold rstripWs
  have h1 : (a ++ ((bs ++ [lb]) ++ c)).reverse
      = c.reverse ++ (lb :: (bs.reverse ++ a.reverse)) := by
    simp
  rw [h1, List.dropWhile_append]
  by_cases he : (c.reverse.dropWhile isPyWs).isEmpty
  · rw [if_pos he]
    rw [List.dropWhile_cons_of_neg (by simp [hlb])]
    have hc : c.reverse.dropWhile isPyWs = [] := by
      simpa using he
    rw [hc]
    simp
  · rw [if_neg he]
    simp

/-! ### Lines of `pySplitlines` -/

/-- The first line produced by `pySplitlinesAux` extends the pending
accumulator (or the input and accumulator are both empty). -/
theorem pySplitlinesAux_shape (l : List Char) :
    ∀ acc, (l = [] ∧ acc = []) ∨
      ∃ e t, pySplitlinesAux l acc = e :: t ∧ acc.reverse <+: e := by
  induction l with
  | nil =>
    intro acc
    by_cases ha : acc.isEmpty
    · exact Or.inl ⟨rfl, by simpa using ha⟩
    · refine Or.inr ⟨acc.reverse, [], ?_, List.prefix_refl _⟩
      simp [pySplitlinesAux, ha]
  | cons c rest ih =>
    intro acc
    refine Or.inr ?_
    by_cases hr : c = '\r'
    · by_cases hh : rest.head? = some '\n'
      · exact ⟨acc.reverse, pySplitlinesAux rest.tail [],
          by simp [pySplitlinesAux, hr, hh], List.prefix_refl _⟩
      · exact ⟨acc.reverse, pySplitlinesAux rest [],
          by simp [pySplitlinesAux, hr, hh], List.prefix_refl _⟩
    · by_cases hb : isLineBreak c
      · exact ⟨acc.reverse, pySplitlinesAux rest [],
          by simp [pySplitlinesAux, hr, hb], List.prefix_refl _⟩
      · rcases ih (c :: acc) with ⟨_, habs⟩ | ⟨e, t, heq, hpre⟩
        · exact absurd habs (by simp)
        · refine ⟨e, t, ?_, ?_⟩
          · have hstep : pySplitlinesAux (c :: rest) acc = pySplitlinesAux rest (c :: acc) := by
              simp [pySplitlinesAux, hr, hb]
            rw [hstep]
            exact heq
          · exact (List.prefix_append _ _).trans (by simpa using hpre)

/-- A linebreak-free prefix of the input is a prefix of some produced
line. -/
theorem exists_line_of_prefix_aux {h : List Char}
    (hnb : ∀ c ∈ h, isLineBreak c = false) :
    ∀ l acc, h ≠ [] → h <+: l →
      ∃ line ∈ pySplitlinesAux l acc, (acc.reverse ++ h) <+: line := by
  induction h with
  | nil => intro l acc hne; exact absurd rfl hne
  | cons x h' ih =>
    intro l acc _ hpre
    obtain ⟨t, rfl⟩ := hpre
    have hx : isLineBreak x = false := hnb x (List.mem_cons_self _ _)
    have hxr : x ≠ '\r' := by
      intro he
      rw [he] at hx
      exact absurd hx (by decide)
    have hstep : pySplitlinesAux ((x :: h') ++ t) acc
        = pySplitlinesAux (h' ++ t) (x :: acc) := by
      simp [pySplitlinesAux, hxr, hx]
    rw [hstep]
    cases h' with
    | nil =>
      simp only [List.nil_append]
      rcases pySplitlinesAux_shape t (x :: acc) with ⟨_, habs⟩ | ⟨e, tl, heq, hp⟩
      · exact absurd habs (by simp)
      · refine ⟨e, ?_, ?_⟩
        · rw [heq]; exact List.mem_cons_self _ _
        · simpa using hp
    | cons y h'' =>
      obtain ⟨line, hmem, hp⟩ :=
        ih (fun c hc => hnb c (List.mem_cons_of_mem _ hc)) ((y :: h'') ++ t) (x :: acc)
          (by simp) (List.prefix_append _ _)
      refine ⟨line, hmem, ?_⟩
      have : (x :: acc).reverse ++ (y :: h'') = acc.reverse ++ (x :: y :: h'') := by
        simp
      rwa [this] at hp

/-- Base case for the infix version: the pattern right after a newline. -/
theorem exists_line_after_newline_base {h : List Char} (hne : h ≠ [])
    (hnb : ∀ c ∈ h, isLineBreak c = false) (acc v : List Char) :
    ∃ line ∈ pySplitlinesAux ('\n' :: (h ++ v)) acc, h <+: line := by
  have hstep : pySplitlinesAux ('\n' :: (h ++ v)) acc
      = acc.reverse :: pySplitlinesAux (h ++ v) [] := by
    simp [pySplitlinesAux, isLineBreak]
  rw [hstep]
  obtain ⟨line, hmem, hp⟩ :=
    exists_line_of_prefix_aux hnb (h ++ v) [] hne (List.prefix_append _ _)
  exact ⟨line, List.mem_cons_of_mem _ hmem, by simpa using hp⟩

/-- A linebreak-free pattern sitting right after a `\n` is a prefix of
some produced line. -/
theorem exists_line_after_newline_aux {h : List Char} (hne : h ≠ [])
    (hnb : ∀ c ∈ h, isLineBreak c = false) :
    ∀ (n : Nat) (u : List Char), u.length ≤ n → ∀ acc v,
      ∃ line ∈ pySplitlinesAux (u ++ '\n' :: (h ++ v)) acc, h <+: line := by
  intro n
  induction n with
  | zero =>
    intro u hu acc v
    have hu0 : u = [] := List.eq_nil_of_length_eq_zero (Nat.le_zero.mp hu)
    subst hu0
    exact exists_line_after_newline_base hne hnb acc v
  | succ n ih =>
    intro u hu acc v
    cases u with
    | nil => exact exists_line_after_newline_base hne hnb acc v
    | cons x u' =>
      by_cases hxr : x = '\r'
      · subst hxr
        cases u' with
        | nil =>
          have hstep : pySplitlinesAux (('\r' :: []) ++ '\n' :: (h ++ v)) acc
              = acc.reverse :: pySplitlinesAux (h ++ v) [] := by
            simp [pySplitlinesAux]
          rw [hstep]
          obtain ⟨line, hmem, hp⟩ :=
            exists_line_of_prefix_aux hnb (h ++ v) [] hne (List.prefix_append _ _)
          exact ⟨line, List.mem_cons_of_mem _ hmem, by simpa using hp⟩
        | cons y u'' =>
          by_cases hy : y = '\n'
          · subst hy
            have hstep : pySplitlinesAux (('\r' :: '\n' :: u'') ++ '\n' :: (h ++ v)) acc
                = acc.reverse :: pySplitlinesAux (u'' ++ '\n' :: (h ++ v)) [] := by
              simp [pySplitlinesAux]
            rw [hstep]
            obtain ⟨line, hmem, hp⟩ := ih u'' (by simp at hu; omega) [] v
            exact ⟨line, List.mem_cons_of_mem _ hmem, hp⟩
          · have hstep : pySplitlinesAux (('\r' :: y :: u'') ++ '\n' :: (h ++ v)) acc
                = acc.reverse :: pySplitlinesAux ((y :: u'') ++ '\n' :: (h ++ v)) [] := by
              simp [pySplitlinesAux, hy]
            rw [hstep]
            obtain ⟨line, hmem, hp⟩ := ih (y :: u'') (by simp at hu ⊢; omega) [] v
            exact ⟨line, List.mem_cons_of_mem _ hmem, hp⟩
      · by_cases hb : isLineBreak x
        · have hstep : pySplitlinesAux ((x :: u') ++ '\n' :: (h ++ v)) acc
              = acc.reverse :: pySplitlinesAux (u' ++ '\n' :: (h ++ v)) [] := by
            simp [pySplitlinesAux, hxr, hb]
          rw [hstep]
          obtain ⟨line, hmem, hp⟩ := ih u' (by simp at hu; omega) [] v
          exact ⟨line, List.mem_cons_of_mem _ hmem, hp⟩
        · have hstep : pySplitlinesAux ((x :: u') ++ '\n' :: (h ++ v)) acc
              = pySplitlinesAux (u' ++ '\n' :: (h ++ v)) (x :: acc) := by
            simp [pySplitlinesAux, hxr, hb]
          rw [hstep]
          exact ih u' (by simp at hu; omega) (x :: acc) v

/-- A linebreak-free prefix of the input is a prefix of some line of
`pySplitlines`. -/
theorem exists_line_of_prefix {h l : List Char} (hne : h ≠ [])
    (hnb : ∀ c ∈ h, isLineBreak c = false) (hpre : h <+: l) :
    ∃ line ∈ pySplitlines l, h <+: line := by
  obtain ⟨line, hmem, hp⟩ := exists_line_of_prefix_aux hnb l [] hne hpre
  exact ⟨line, hmem, by simpa using hp⟩

/-- A linebreak-free pattern sitting right after a `\n` is a prefix of
some line of `pySplitlines`. -/
theorem exists_line_after_newline {h : List Char} (hne : h ≠ [])
    (hnb : ∀ c ∈ h, isLineBreak c = false) (u v : List Char) :
    ∃ line ∈ pySplitlines (u ++ '\n' :: (h ++ v)), h <+: line :=
  exists_line_after_newline_aux hne hnb u.length u (Nat.le_refl _) [] v

/-! ### The master well-formedness lemma -/

/-- Stripping a string that starts with `--- a/` and contains `\n+++ b/`
and `\n@@` yields a well-formed patch: the strip cannot destroy those
markers because each chunk ends in a non-whitespace character. -/
theorem wellFormedPatch_strip_of {x : List Char}
    (h0 : "--- a/".toList <+: x)
    (h1 : "\n+++ b/".toList <:+: x)
    (h2 : "\n@@".toList <:+: x) :
    wellFormedPatch (pyStrip x).asString = true := by
  obtain ⟨t0, hx0⟩ := h0
  have hlstrip : lstripWs x = x := by
    rw [← hx0]
    have hlit : ("--- a/".toList : List Char) = '-' :: "-- a/".toList := rfl
    rw [hlit, List.cons_append, lstripWs, List.dropWhile_cons_of_neg (by decide)]
  have hstrip : pyStrip x = rstripWs x := by rw [pyStrip, hlstrip]
  have hr0 : rstripWs x = ("--- a".toList ++ ['/']) ++ rstripWs t0 := by
    rw [← hx0]
    have hlit : ("--- a/".toList : List Char) = "--- a".toList ++ ['/'] := rfl
    rw [hlit]
    have hra := rstripWs_append [] "--- a".toList t0 '/' (by decide)
    simpa using hra
  obtain ⟨u1, v1, hx1⟩ := h1
  have hr1 : rstripWs x
      = u1 ++ '\n' :: ("+++".toList ++ (' ' :: 'b' :: '/' :: rstripWs v1)) := by
    rw [← hx1]
    have hlit : ("\n+++ b/".toList : List Char) = "\n+++ b".toList ++ ['/'] := rfl
    rw [hlit, List.append_assoc]
    rw [rstripWs_append u1 "\n+++ b".toList v1 '/' (by decide)]
    rfl
  obtain ⟨u2, v2, hx2⟩ := h2
  have hr2 : rstripWs x = u2 ++ '\n' :: ("@@".toList ++ rstripWs v2) := by
    rw [← hx2]
    have hlit : ("\n@@".toList : List Char) = "\n@".toList ++ ['@'] := rfl
    rw [hlit, List.append_assoc]
    rw [rstripWs_append u2 "\n@".toList v2 '@' (by decide)]
    rfl
  unfold wellFormedPatch
  rw [List.toList_asString]
  rw [Bool.and_eq_true, Bool.and_eq_true, Bool.and_eq_true]
  refine ⟨⟨⟨?_, ?_⟩, ?_⟩, ?_⟩
  · rw [hstrip, hr0]
    simp
  · rw [hstrip, hr0]
    obtain ⟨line, hmem, hp⟩ :=
      exists_line_of_prefix (h := "---".toList) (by decide) (by decide)
        (prefix_appendr _ (prefix_appendr _ ⟨" a".toList, rfl⟩))
    exact List.any_eq_true.mpr ⟨line, hmem, List.isPrefixOf_iff_prefix.mpr hp⟩
  · rw [hstrip, hr1]
    obtain ⟨line, hmem, hp⟩ :=
      exists_line_after_newline (h := "+++".toList) (by decide) (by decide)
        u1 (' ' :: 'b' :: '/' :: rstripWs v1)
    exact List.any_eq_true.mpr ⟨line, hmem, List.isPrefixOf_iff_prefix.mpr hp⟩
  · rw [hstrip, hr2]
    obtain ⟨line, hmem, hp⟩ :=
      exists_line_after_newline (h := "@@".toList) (by decide) (by decide)
        u2 (rstripWs v2)
    exact List.any_eq_true.mpr ⟨line, hmem, List.isPrefixOf_iff_prefix.mpr hp⟩

/-! ### Well-formedness of the built patches -/

/-- The common header carries all three markers. -/
theorem patch_header_decomp (fp : String) (n : Nat) (oc nc : String) :
    "--- a/".toList <+: (patch_header fp n oc nc).toList ∧
    "\n+++ b/".toList <:+: (patch_header fp n oc nc).toList ∧
    "\n@@".toList <:+: (patch_header fp n oc nc).toList := by
  unfold patch_header
  refine ⟨?_, ?_, ?_⟩
  · rw [toList_append]
    exact List.prefix_append _ _
  · simp only [toList_append]
    exact infix_appendl _ (infix_appendl _ (infix_appendr _ (List.infix_refl _)))
  · simp only [toList_append]
    exact infix_appendl _ (infix_appendl _ (infix_appendl _ (infix_appendl _
      (infix_appendr _ (List.infix_refl _)))))

theorem template_patch_wf (bug_type fp : String) (n : Nat) :
    wellFormedPatch (template_patch bug_type fp n) = true := by
  obtain ⟨hp0, hp1, hp2⟩ := patch_header_decomp fp n "5" "8"
  have key : ∀ body : String,
      wellFormedPatch (pyStripStr (patch_header fp n "5" "8" ++ body)) = true := by
    intro body
    unfold pyStripStr
    exact wellFormedPatch_strip_of
      (by rw [toList_append]; exact prefix_appendr _ hp0)
      (by rw [toList_append]; exact infix_appendr _ hp1)
      (by rw [toList_append]; exact infix_appendr _ hp2)
  simp only [template_patch]
  split
  · exact key _
  · split
    · exact key _
    · split
      · exact key _
      · exact key _

theorem heap_guard_patch_wf (fp : String) (n : Nat) (cb ca : List String)
    (t i an ix : String) :
    wellFormedPatch (heap_guard_patch fp n cb ca t i an ix) = true := by
  obtain ⟨hp0, hp1, hp2⟩ := patch_header_decomp fp n "6" "9"
  simp only [heap_guard_patch, pyStripStr]
  exact wellFormedPatch_strip_of
    (by simp only [toList_append]
        exact prefix_appendr _ (prefix_appendr _ (prefix_appendr _ (prefix_appendr _
          (prefix_appendr _ hp0)))))
    (by simp only [toList_append]
        exact infix_appendr _ (infix_appendr _ (infix_appendr _ (infix_appendr _
          (infix_appendr _ hp1)))))
    (by simp only [toList_append]
        exact infix_appendr _ (infix_appendr _ (infix_appendr _ (infix_appendr _
          (infix_appendr _ hp2)))))

theorem generic_safety_patch_wf (fp : String) (n : Nat) (cb ca : List String)
    (t i : String) :
    wellFormedPatch (generic_safety_patch fp n cb ca t i) = true := by
  obtain ⟨hp0, hp1, hp2⟩ := patch_header_decomp fp n "6" "9"
  simp only [generic_safety_patch, pyStripStr]
  exact wellFormedPatch_strip_of
    (by simp only [toList_append]
        exact prefix_appendr _ (prefix_appendr _ (prefix_appendr _ (prefix_appendr _ hp0))))
    (by simp only [toList_append]
        exact infix_appendr _ (infix_appendr _ (infix_appendr _ (infix_appendr _ hp1))))
    (by simp only [toList_append]
        exact infix_appendr _ (infix_appendr _ (infix_appendr _ (infix_appendr _ hp2))))

theorem realistic_from_code_wf (bt fp : String) (n : Nat)
    (lines : List (List Char)) (ti : Nat) (tg : String) :
    wellFormedPatch (realistic_from_code bt fp n lines ti tg) = true := by
  simp only [realistic_from_code]
  split
  · split
    · exact heap_guard_patch_wf _ _ _ _ _ _ _ _
    · exact generic_safety_patch_wf _ _ _ _ _ _
  · exact generic_safety_patch_wf _ _ _ _ _ _

theorem generate_realistic_patch_core_wf (bt fp : String) (ln : Nat)
    (ac : Option String) :
    wellFormedPatch (generate_realistic_patch_core bt fp ln ac) = true := by
  simp only [generate_realistic_patch_core]
  split
  · split
    · split
      · split
        · exact realistic_from_code_wf _ _ _ _ _ _
        · exact template_patch_wf _ _ _
      · exact template_patch_wf _ _ _
    · exact template_patch_wf _ _ _
  · exact template_patch_wf _ _ _

theorem generate_realistic_patch_wf (analysis : Analysis) (ac afp : Option String) :
    wellFormedPatch (generate_realistic_patch analysis ac afp) = true := by
  simp only [generate_realistic_patch]
  exact generate_realistic_patch_core_wf _ _ _ _

/-- A patch accepted by `validate_patch_format` satisfies the structural
invariant. -/
theorem validate_patch_format_wf {p : String}
    (h : (validate_patch_format p).1 = true) : wellFormedPatch p = true := by
  unfold validate_patch_format at h
  by_cases he : pyStripStr p = ""
  · rw [if_pos he] at h
    exact absurd h (by decide)
  · rw [if_neg he] at h
    simp only [List.isEmpty_eq_true, List.append_eq_nil] at h
    obtain ⟨⟨⟨⟨hm, hp'⟩, hk⟩, _⟩, _⟩ := h
    have hpne : p ≠ "" := by
      intro hpe
      exact he (by rw [hpe]; rfl)
    have hlne : p.toList ≠ [] := by
      intro hl
      exact hpne (by rw [← String.asString_toList p, hl]; rfl)
    unfold wellFormedPatch
    rw [Bool.and_eq_true, Bool.and_eq_true, Bool.and_eq_true]
    refine ⟨⟨⟨by simpa using hlne, ?_⟩, ?_⟩, ?_⟩
    · by_contra hc
      rw [Bool.not_eq_true] at hc
      rw [hc] at hm
      simp at hm
    · by_contra hc
      rw [Bool.not_eq_true] at hc
      rw [hc] at hp'
      simp at hp'
    · by_contra hc
      rw [Bool.not_eq_true] at hc
      rw [hc] at hk
      simp at hk

/-! ### C6: stored patch candidates are well-formed -/

/-- C6: every patch candidate stored into the state by the initial or
refinement generator node is nonempty and has `---`, `+++` and `@@`
header lines; the deterministic template/realistic patch always has them;
and when the capability is blocked, raises, or its cleaned output fails
format validation, the node stores exactly the deterministic patch. -/
theorem patch_candidates_wellformed :
    (∀ (client_available : Bool) (code_result : Option (String × String))
       (analysis : Analysis) (resp : GenResponse),
       wellFormedPatch
         (lightweight_patch_generator_stored client_available code_result analysis resp)
         = true ∧
       wellFormedPatch
         (refinement_patch_generator_stored client_available code_result analysis resp)
         = true) ∧
    (∀ (analysis : Analysis) (ac afp : Option String),
       wellFormedPatch (generate_realistic_patch analysis ac afp) = true) ∧
    (∀ (code_result : Option (String × String)) (analysis : Analysis) (raw : String),
       lightweight_patch_generator_stored true code_result analysis .blocked
         = generate_realistic_patch analysis (code_result.map Prod.fst)
             (code_result.map Prod.snd) ∧
       lightweight_patch_generator_stored true code_result analysis .exc
         = generate_realistic_patch analysis (code_result.map Prod.fst)
             (code_result.map Prod.snd) ∧
       lightweight_patch_generator_stored true code_result analysis (.text raw)
         = (if (validate_patch_format (clean_gemini_patch_output raw)).1 then
              clean_gemini_patch_output raw
            else
              generate_realistic_patch analysis (code_result.map Prod.fst)
                (code_result.map Prod.snd))) := by
  refine ⟨?_, ?_, ?_⟩
  · intro cav cr a resp
    constructor
    · cases resp with
      | exc =>
        simp only [lightweight_patch_generator_stored]
        split
        · exact generate_realistic_patch_wf _ _ _
        · exact generate_realistic_patch_wf _ _ _
      | blocked =>
        simp only [lightweight_patch_generator_stored]
        split
        · exact generate_realistic_patch_wf _ _ _
        · exact generate_realistic_patch_wf _ _ _
      | text raw =>
        simp only [lightweight_patch_generator_stored]
        split
        · exact generate_realistic_patch_wf _ _ _
        · split
          · next hvalid => exact validate_patch_format_wf hvalid
          · exact generate_realistic_patch_wf _ _ _
    · cases resp with
      | exc =>
        simp only [refinement_patch_generator_stored]
        split
        · exact generate_realistic_patch_wf _ _ _
        · exact generate_realistic_patch_wf _ _ _
      | blocked =>
        simp only [refinement_patch_generator_stored]
        split
        · exact generate_realistic_patch_wf _ _ _
        · exact generate_realistic_patch_wf _ _ _
      | text raw =>
        simp only [refinement_patch_generator_stored]
        split
        · exact generate_realistic_patch_wf _ _ _
        · split
          · next hvalid => exact validate_patch_format_wf hvalid
          · exact generate_realistic_patch_wf _ _ _
  · exact generate_realistic_patch_wf
  · intro cr a raw
    exact ⟨rfl, rfl, rfl⟩

end SmartPatch
